import Mathlib

/-!
Verification of the beggar-my-neighbor simulator.

The development shallowly embeds the C++ sources: the `deck` helpers
(`from_string`, `is_valid`, the stream serializer), the game state machine
(`turn`, `is_game_over`, `split_cards`/`start`), the two `play` drivers
(the cycle-reporting one from the test-suite variant and the batch one
from the multithreaded variant), and the batch harness aggregation loop.
Cards are C++ `int`s, modelled as `Int`; hands, pile and deck are
`std::vector<int>`, modelled as `List Int`.
-/

namespace BMN

/-- Parse one character of a deck string, as in `deck::from_string`:
`J`,`Q`,`K`,`A` map to ranks 1-4, anything else to 0. -/
def char_to_rank (ch : Char) : Int :=
  if ch = 'J' then 1
  else if ch = 'Q' then 2
  else if ch = 'K' then 3
  else if ch = 'A' then 4
  else 0

/-- Serialize one card, as in `operator<<(ostream&, const deck&)`:
ranks 1-4 print `J`,`Q`,`K`,`A`, everything else prints `-`. -/
def rank_to_char (c : Int) : Char :=
  if c = 1 then 'J'
  else if c = 2 then 'Q'
  else if c = 3 then 'K'
  else if c = 4 then 'A'
  else '-'

/-- Embedding of `deck::from_string`: the deck starts as 52 zeros and the
first `min |s| 52` characters are decoded in place.  The result is the
decoded prefix padded with zeros back up to 52 slots. -/
def from_string (s : List Char) : List Int :=
  (s.take 52).map char_to_rank ++ List.replicate (52 - s.length) 0

/-- Embedding of the deck serializer `operator<<`: each card becomes one
character. -/
def deck_to_string (cards : List Int) : List Char :=
  cards.map rank_to_char

/-- Embedding of `deck::is_valid`: every card must be in range 0..4, each
face rank 1..4 must occur exactly 4 times, and the vector must hold
exactly 52 cards. -/
def is_valid (cards : List Int) : Bool :=
  (cards.all fun c => decide (0 ≤ c) && decide (c ≤ 4))
    && decide (cards.count 1 = 4)
    && decide (cards.count 2 = 4)
    && decide (cards.count 3 = 4)
    && decide (cards.count 4 = 4)
    && decide (cards.length = 52)

/-- Embedding of the `game` object state of the test-suite and batch
variants: both hands, the pile, the penalty counter and flag, which
player is active (`active_player` points at `p1` or `p2`), and the two
counters `cards_played_total` and `tricks`. -/
structure Game where
  p1 : List Int
  p2 : List Int
  pile : List Int
  remaining_penalties : Int
  face_card_active : Bool
  active_is_p1 : Bool
  cards_played_total : Nat
  tricks : Nat
deriving DecidableEq, Repr

/-- Cards of the player `active_player` currently points at. -/
def active_cards (g : Game) : List Int :=
  if g.active_is_p1 then g.p1 else g.p2

/-- Embedding of `game::is_game_over`: either hand is empty. -/
def is_game_over (g : Game) : Bool :=
  g.p1.isEmpty || g.p2.isEmpty

/-- Embedding of `game::turn` (identical in the test-suite and batch
variants): pop the front card of the active hand onto the pile and
update the penalty state.  A face card sets the penalty and passes the
turn; a plain card under an active penalty decrements it, resolving the
trick (the payer collects the pile, keeping the turn) when it reaches 0;
otherwise the turn simply passes. -/
def turn (g : Game) : Game :=
  match active_cards g with
  | [] => g
  | card :: rest =>
    let g1 : Game :=
      { g with
        p1 := if g.active_is_p1 then rest else g.p1
        p2 := if g.active_is_p1 then g.p2 else rest
        pile := g.pile ++ [card]
        cards_played_total := g.cards_played_total + 1 }
    if 0 < card then
      { g1 with
        face_card_active := true
        remaining_penalties := card
        active_is_p1 := !g1.active_is_p1 }
    else if g.face_card_active then
      if g.remaining_penalties - 1 = 0 then
        { g1 with
          tricks := g1.tricks + 1
          face_card_active := false
          remaining_penalties := g.remaining_penalties - 1
          p1 := if g.active_is_p1 then g1.p1 ++ g1.pile else g1.p1
          p2 := if g.active_is_p1 then g1.p2 else g1.p2 ++ g1.pile
          pile := [] }
      else
        { g1 with
          remaining_penalties := g.remaining_penalties - 1
          active_is_p1 := !g1.active_is_p1 }
    else
      { g1 with active_is_p1 := !g1.active_is_p1 }

/-- Embedding of `game::split_cards` followed by the rest of
`game::start`: player 1 takes the first half of the deck, player 2 the
second half, player 1 starts, and all derived state is reset. -/
def start_game (deck : List Int) : Game :=
  { p1 := deck.take (deck.length / 2)
    p2 := deck.drop (deck.length / 2)
    pile := []
    remaining_penalties := 0
    face_card_active := false
    active_is_p1 := true
    cards_played_total := 0
    tricks := 0 }

/-- Fuelled version of the shared simulation loop of `game::play` (the
loop bodies in the test-suite and batch variants are identical): while
the game is not over and the move limit has not been reached, look the
hand pair up in the set of seen states, stopping with the cycle flag on
a hit, and otherwise record the state and take a turn. -/
def play_loop_fuel (fuel max_moves : Nat) (seen : List (List Int × List Int))
    (g : Game) : Game × Bool :=
  match fuel with
  | 0 => (g, false)
  | fuel + 1 =>
    if is_game_over g = true ∨ max_moves ≤ g.cards_played_total then (g, false)
    else if (g.p1, g.p2) ∈ seen then (g, true)
    else play_loop_fuel fuel max_moves ((g.p1, g.p2) :: seen) (turn g)

/-- Entry point of the loop: since the move counter grows by one on every
iteration that takes a turn, `max_moves + 1 - cards_played_total` steps
of fuel always suffice, so this is the exact while loop (see
`play_loop_eq`). -/
def play_loop (max_moves : Nat) (seen : List (List Int × List Int)) (g : Game) :
    Game × Bool :=
  play_loop_fuel (max_moves + 1 - g.cards_played_total) max_moves seen g

/-- Result record returned by the test-suite variant of `game::play`:
`std::tuple<int, int, int, bool>` holding winner, move count, trick
count and the cycle flag. -/
structure PlayResult where
  winner : Int
  moves_played : Nat
  tricks_won : Nat
  cycled : Bool
deriving DecidableEq, Repr

/-- Embedding of the test-suite variant of `game::play`: run the loop,
then report winner 2 when player 1's hand is empty, winner 1 when player
2's hand is empty, and winner -1 when the game is not over. -/
def play (max_moves : Nat) (g : Game) : PlayResult :=
  let r := play_loop max_moves [] g
  { winner :=
      if is_game_over r.1 = true then (if r.1.p1.isEmpty then 2 else 1) else -1
    moves_played := r.1.cards_played_total
    tricks_won := r.1.tricks
    cycled := r.2 }

/-- Identifier of the player `active_player` points at (`player::id` is 1
for `p1` and 2 for `p2`). -/
def active_id (g : Game) : Int :=
  if g.active_is_p1 then 1 else 2

/-- Embedding of the batch variant of `game::play`: on a cycle it returns
winner -1 from inside the loop; otherwise, after the loop, it returns
the id of the current active player as the winner field (even when the
loop stopped on the move limit). -/
def play_batch (max_moves : Nat) (g : Game) : Int × Nat × Nat :=
  let r := play_loop max_moves [] g
  if r.2 then (-1, r.1.cards_played_total, r.1.tricks)
  else (active_id r.1, r.1.cards_played_total, r.1.tricks)

/-- Total number of cards currently held in both hands and the pile. -/
def total_cards (g : Game) : Nat :=
  g.p1.length + g.p2.length + g.pile.length

/-- Core dynamic state of a game: both hands, the pile, the penalty
counter and flag, and the active player.  These are exactly the fields
`turn` reads; the counters `cards_played_total` and `tricks` never feed
back into the dynamics. -/
def core_state (g : Game) :
    List Int × List Int × List Int × Int × Bool × Bool :=
  (g.p1, g.p2, g.pile, g.remaining_penalties, g.face_card_active,
    g.active_is_p1)

/-- Action of `turn` on the core state alone (proved to commute with
`core_state` in `core_state_turn`). -/
def turn_core (s : List Int × List Int × List Int × Int × Bool × Bool) :
    List Int × List Int × List Int × Int × Bool × Bool :=
  match s with
  | (p1, p2, pile, rem, face, act) =>
    match (if act then p1 else p2) with
    | [] => (p1, p2, pile, rem, face, act)
    | card :: rest =>
      if 0 < card then
        (if act then rest else p1, if act then p2 else rest,
          pile ++ [card], card, true, !act)
      else if face then
        if rem - 1 = 0 then
          (if act then rest ++ (pile ++ [card]) else p1,
            if act then p2 else rest ++ (pile ++ [card]),
            [], rem - 1, false, act)
        else
          (if act then rest else p1, if act then p2 else rest,
            pile ++ [card], rem - 1, face, !act)
      else
        (if act then rest else p1, if act then p2 else rest,
          pile ++ [card], rem, face, !act)

/-- Boolean check that the first `n` states of the run starting at `g`
are all live (neither hand empty at the start of each of the first `n`
turns). -/
def run_live_upto : Nat → Game → Bool
  | 0, _ => true
  | n + 1, g => !(is_game_over g) && run_live_upto n (turn g)

/-- Result of one unit of work of the batch harness, as collected in the
batch variant's `main`: the tuple returned by `run_game_simulation`
(winner, move count, trick count, and the deck that was used). -/
structure sim_result where
  winner : Int
  cards_played : Nat
  tricks : Nat
  game_deck : List Int
deriving DecidableEq, Repr

/-- State of the batch aggregation loop: the running best score
`high_score` and the record lines appended to the result log so far
(each line is `high_score, tricks, winner, deck`). -/
abbrev CollectState := Nat × List (Nat × Nat × Int × List Int)

/-- Embedding of one iteration of the result-collection loop of the
batch variant's `main`: only games with a positive winner whose move
count strictly exceeds the running best update the best and append one
record line. -/
def collect_step (st : CollectState) (r : sim_result) : CollectState :=
  if 0 < r.winner ∧ st.1 < r.cards_played then
    (r.cards_played, st.2 ++ [(r.cards_played, r.tricks, r.winner, r.game_deck)])
  else st

/-- Embedding of the whole result-collection loop: fold over the list of
completed simulation results, starting from best 0 and an empty log. -/
def collect_results (rs : List sim_result) : CollectState :=
  rs.foldl collect_step (0, [])

/-- Deck string of the spec's example scenario A: a Jack followed by 51
plain cards. -/
def scenario_a_string : List Char := 'J' :: List.replicate 51 '-'

/-- Deck of example scenario A, as parsed by `from_string`. -/
def deck_a : List Int := from_string scenario_a_string

/-- Deck string of a concrete 52-card deck (4 of each face rank) on which
hand-pair cycle detection misfires. -/
def cex_string : List Char :=
  "QJ-J-K-----K--J------J-Q---A-QK----------Q----A-AKA-".toList

/-- Deck on which the hand pair at the start of turn 55 recurs at the
start of turn 57 while the game still terminates at move 58. -/
def cex_deck : List Int := from_string cex_string

/-- Small game state whose full core state recurs with period 4: player 1
holds a Jack and a plain card, player 2 holds one plain card. -/
def cycling_game : Game :=
  { p1 := [1, 0], p2 := [0], pile := [], remaining_penalties := 0,
    face_card_active := false, active_is_p1 := true,
    cards_played_total := 0, tricks := 0 }

/-- A valid 52-card deck used as a witness input: 4 of each face rank
followed by 36 plain cards. -/
def sorted_deck : List Int :=
  List.replicate 4 1 ++ List.replicate 4 2 ++ List.replicate 4 3 ++
    List.replicate 4 4 ++ List.replicate 36 0

/-- Mutation of `sorted_deck` in which one Jack was replaced by a plain
card, so rank 1 occurs only 3 times. -/
def mutated_deck : List Int :=
  List.replicate 3 1 ++ [0] ++ List.replicate 4 2 ++ List.replicate 4 3 ++
    List.replicate 4 4 ++ List.replicate 36 0

/-- A deck value that is not a rank sequence: 4 of each face rank, padded
with 36 copies of the out-of-range value 7. -/
def out_of_range_deck : List Int :=
  List.replicate 4 1 ++ List.replicate 4 2 ++ List.replicate 4 3 ++
    List.replicate 4 4 ++ List.replicate 36 7

/-- Embedding of the `game` state of the simplest variant (the one with
the `game_over` flag): its pile is the field `cards_played` and its
penalty counter is `remaining_turns_for_trick`. -/
structure game_v0 where
  p1 : List Int
  p2 : List Int
  cards_played : List Int
  remaining_turns_for_trick : Int
  face_card_active : Bool
  game_over : Bool
  active_is_p1 : Bool
  cards_played_total : Nat
  tricks : Nat
deriving DecidableEq, Repr

/-- Cards of the active player in the simplest variant. -/
def active_cards_v0 (g : game_v0) : List Int :=
  if g.active_is_p1 then g.p1 else g.p2

/-- Cards of the non-active player in the simplest variant. -/
def opponent_cards_v0 (g : game_v0) : List Int :=
  if g.active_is_p1 then g.p2 else g.p1

/-- Embedding of `game::turn` of the simplest variant: an empty active
hand sets the `game_over` flag; a face card sets the penalty and passes
the turn (the `!face_card_active || face_card_played` early return); a
plain card with no active penalty passes the turn; a plain card under an
active penalty decrements the counter and, when it reaches 0, resolves
the trick by `switch_player()` FIRST and only then collecting the pile,
so the new active player (the face-card side, not the payer) takes it;
when the counter stays positive the same payer keeps the turn. -/
def turn_v0 (g : game_v0) : game_v0 :=
  match active_cards_v0 g with
  | [] => { g with game_over := true }
  | card :: rest =>
    let g1 : game_v0 :=
      { g with
        p1 := if g.active_is_p1 then rest else g.p1
        p2 := if g.active_is_p1 then g.p2 else rest
        cards_played := g.cards_played ++ [card]
        cards_played_total := g.cards_played_total + 1 }
    if 0 < card then
      { g1 with
        face_card_active := true
        remaining_turns_for_trick := card
        active_is_p1 := !g1.active_is_p1 }
    else if g.face_card_active then
      if g.remaining_turns_for_trick - 1 = 0 then
        { g1 with
          remaining_turns_for_trick := g.remaining_turns_for_trick - 1
          tricks := g1.tricks + 1
          face_card_active := false
          active_is_p1 := !g1.active_is_p1
          p1 := if g1.active_is_p1 then g1.p1 else g1.p1 ++ g1.cards_played
          p2 := if g1.active_is_p1 then g1.p2 ++ g1.cards_played else g1.p2
          cards_played := [] }
      else
        { g1 with
          remaining_turns_for_trick := g.remaining_turns_for_trick - 1 }
    else
      { g1 with
        remaining_turns_for_trick := g.remaining_turns_for_trick - 1
        active_is_p1 := !g1.active_is_p1 }

/-- Penalty-payoff position for the simplest variant: player 2 is about
to pay the single remaining penalty of a Jack with its last plain card
while player 1, who led the Jack, holds two plain cards. -/
def v0_payoff_state : game_v0 :=
  { p1 := [0, 0], p2 := [0], cards_played := [1],
    remaining_turns_for_trick := 1, face_card_active := true,
    game_over := false, active_is_p1 := false,
    cards_played_total := 2, tricks := 0 }

/-- Increment of the move counter when the game is not over: both hands
are nonempty then, so `turn` pops a card. -/
theorem turn_moves_of_not_over (g : Game) (h : is_game_over g = false) :
    (turn g).cards_played_total = g.cards_played_total + 1 := by
  rcases g with ⟨p1, p2, pile, rem, face, act, m, t⟩
  simp only [is_game_over, Bool.or_eq_false_iff] at h
  cases act <;> rcases p1 with _ | ⟨c1, r1⟩ <;> rcases p2 with _ | ⟨c2, r2⟩ <;>
    (try simp_all) <;> dsimp only [turn, active_cards] <;>
    split <;> (try split_ifs) <;> simp_all

/-- Unfolding equation of `play_loop`, matching the C++ loop body
literally: stop when the game is over or the move limit is reached, stop
with the cycle flag when the hand pair has been seen, and otherwise
record the pair and take a turn. -/
theorem play_loop_eq (max_moves : Nat) (seen : List (List Int × List Int))
    (g : Game) :
    play_loop max_moves seen g =
      if is_game_over g = true ∨ max_moves ≤ g.cards_played_total then (g, false)
      else if (g.p1, g.p2) ∈ seen then (g, true)
      else play_loop max_moves ((g.p1, g.p2) :: seen) (turn g) := by
  unfold play_loop
  rcases hf : max_moves + 1 - g.cards_played_total with _ | fuel
  · have hle : max_moves ≤ g.cards_played_total := by omega
    simp [play_loop_fuel, hle]
  · rw [play_loop_fuel]
    by_cases hstop : is_game_over g = true ∨ max_moves ≤ g.cards_played_total
    · simp [hstop]
    · rw [if_neg hstop, if_neg hstop]
      by_cases hseen : (g.p1, g.p2) ∈ seen
      · simp [hseen]
      · rw [if_neg hseen, if_neg hseen]
        rw [not_or, not_le] at hstop
        have hm := turn_moves_of_not_over g (by simpa using hstop.1)
        have : max_moves + 1 - (turn g).cards_played_total = fuel := by omega
        rw [this]

/-- Exit analysis of the simulation loop: a run flagged as cycled stopped
with the game not over and strictly below the move limit, while a run
not flagged as cycled stopped because the game was over or the move
limit had been reached. -/
theorem play_loop_exit (max_moves : Nat) :
    ∀ (n : Nat) (seen : List (List Int × List Int)) (g : Game),
      max_moves - g.cards_played_total ≤ n →
      ((play_loop max_moves seen g).2 = true →
        is_game_over (play_loop max_moves seen g).1 = false ∧
          (play_loop max_moves seen g).1.cards_played_total < max_moves) ∧
      ((play_loop max_moves seen g).2 = false →
        is_game_over (play_loop max_moves seen g).1 = true ∨
          max_moves ≤ (play_loop max_moves seen g).1.cards_played_total) := by
  intro n
  induction n with
  | zero =>
    intro seen g hn
    have hle : max_moves ≤ g.cards_played_total := by omega
    rw [play_loop_eq, if_pos (Or.inr hle)]
    exact ⟨fun h => absurd h (by simp), fun _ => Or.inr hle⟩
  | succ n ih =>
    intro seen g hn
    rw [play_loop_eq]
    by_cases hstop : is_game_over g = true ∨ max_moves ≤ g.cards_played_total
    · rw [if_pos hstop]
      exact ⟨fun h => absurd h (by simp), fun _ => hstop⟩
    · have hlive : is_game_over g = false := by
        rcases not_or.mp hstop with ⟨h1, _⟩
        simpa using h1
      have hlt : g.cards_played_total < max_moves := by
        rcases not_or.mp hstop with ⟨_, h2⟩
        omega
      rw [if_neg hstop]
      by_cases hseen : (g.p1, g.p2) ∈ seen
      · rw [if_pos hseen]
        exact ⟨fun _ => ⟨hlive, hlt⟩, fun h => absurd h (by simp)⟩
      · rw [if_neg hseen]
        apply ih
        have hm := turn_moves_of_not_over g hlive
        omega

/-- C4: every completed run of the test-suite `play` falls in exactly one
of the three outcome categories of the returned record: a winner (1 or
2) with the game over and no cycle flag, a detected cycle with winner -1
and the game not over, or move-limit exhaustion with winner -1, no cycle
flag, and the game not over.  The three disjuncts are pairwise
contradictory in the record fields, so exactly one holds. -/
theorem play_outcome_trichotomy (deck : List Int) (max_moves : Nat) :
    (((play max_moves (start_game deck)).winner = 1 ∨
        (play max_moves (start_game deck)).winner = 2) ∧
      (play max_moves (start_game deck)).cycled = false ∧
      is_game_over (play_loop max_moves [] (start_game deck)).1 = true) ∨
    ((play max_moves (start_game deck)).winner = -1 ∧
      (play max_moves (start_game deck)).cycled = true ∧
      is_game_over (play_loop max_moves [] (start_game deck)).1 = false ∧
      (play max_moves (start_game deck)).moves_played < max_moves) ∨
    ((play max_moves (start_game deck)).winner = -1 ∧
      (play max_moves (start_game deck)).cycled = false ∧
      is_game_over (play_loop max_moves [] (start_game deck)).1 = false ∧
      max_moves ≤ (play max_moves (start_game deck)).moves_played) := by
  have hspec := play_loop_exit max_moves max_moves [] (start_game deck)
    (by simp [start_game])
  rcases hcy : (play_loop max_moves [] (start_game deck)).2 with _ | _
  · rcases hov : is_game_over (play_loop max_moves [] (start_game deck)).1 with
      _ | _
    · refine Or.inr (Or.inr ⟨?_, ?_, rfl, ?_⟩)
      · simp [play, hov]
      · simp [play, hcy]
      · rcases hspec.2 hcy with h | h
        · rw [hov] at h; cases h
        · simpa [play] using h
    · refine Or.inl ⟨?_, ?_, rfl⟩
      · rcases he : (play_loop max_moves [] (start_game deck)).1.p1.isEmpty with
          _ | _
        · exact Or.inl (by simp [play, hov, he])
        · exact Or.inr (by simp [play, hov, he])
      · simp [play, hcy]
  · rcases hspec.1 hcy with ⟨hov, hlt⟩
    refine Or.inr (Or.inl ⟨?_, ?_, hov, ?_⟩)
    · simp [play, hov]
    · simp [play, hcy]
    · simpa [play] using hlt

/-- C7: when the loop stops because the move limit is reached with
neither hand empty, the batch variant's `play` reports the current
active player's id (a positive number) as the winner, while the
test-suite variant reports winner -1. -/
theorem limit_exhaustion_winner_mismatch (deck : List Int) (max_moves : Nat)
    (hcy : (play_loop max_moves [] (start_game deck)).2 = false)
    (hov : is_game_over (play_loop max_moves [] (start_game deck)).1 = false) :
    max_moves ≤ (play_loop max_moves [] (start_game deck)).1.cards_played_total ∧
    (play_batch max_moves (start_game deck)).1 =
      active_id (play_loop max_moves [] (start_game deck)).1 ∧
    0 < (play_batch max_moves (start_game deck)).1 ∧
    (play max_moves (start_game deck)).winner = -1 := by
  have hspec := play_loop_exit max_moves max_moves [] (start_game deck)
    (by simp [start_game])
  have hle : max_moves ≤
      (play_loop max_moves [] (start_game deck)).1.cards_played_total := by
    rcases hspec.2 hcy with h | h
    · rw [hov] at h; cases h
    · exact h
  refine ⟨hle, ?_, ?_, ?_⟩
  · simp [play_batch, hcy]
  · simp only [play_batch, hcy, Bool.false_eq_true, if_false, active_id]
    split_ifs <;> norm_num
  · simp [play, hov]

/-- Witness for C7: an all-plain deck with move limit 3 stops on the
limit with no cycle and no empty hand. -/
theorem limit_exhaustion_winner_mismatch_witness :
    3 ≤ (play_loop 3 [] (start_game (List.replicate 52 0))).1.cards_played_total ∧
    (play_batch 3 (start_game (List.replicate 52 0))).1 =
      active_id (play_loop 3 [] (start_game (List.replicate 52 0))).1 ∧
    0 < (play_batch 3 (start_game (List.replicate 52 0))).1 ∧
    (play 3 (start_game (List.replicate 52 0))).winner = -1 :=
  limit_exhaustion_winner_mismatch (List.replicate 52 0) 3 (by decide) (by decide)

/-- Effect of `turn` when the active player pays off the last penalty
card with a plain card: the trick counter grows, the penalty flag
clears, the turn does not pass, and the payer's hand gains the whole
pile (which ends with the card just played) while the pile empties. -/
theorem turn_payoff (g : Game) (rest : List Int)
    (hhand : active_cards g = 0 :: rest)
    (hface : g.face_card_active = true)
    (hrem : g.remaining_penalties = 1) :
    (turn g).tricks = g.tricks + 1 ∧
    (turn g).face_card_active = false ∧
    (turn g).active_is_p1 = g.active_is_p1 ∧
    active_cards (turn g) = rest ++ (g.pile ++ [0]) ∧
    (turn g).pile = [] := by
  rcases g with ⟨p1, p2, pile, rem, face, act, m, t⟩
  dsimp only at hface hrem
  subst hface hrem
  cases act <;> dsimp only [active_cards] at hhand <;> subst hhand <;>
    dsimp only [turn, active_cards] <;> norm_num

/-- C10: paying the last penalty with one's final card does not lose the
game: the payer's hand afterwards is the former pile followed by the
card just played, so it holds at least two cards and is in particular
nonempty, while the pile empties. -/
theorem last_card_payoff_not_loss (g : Game)
    (hhand : active_cards g = [0])
    (hface : g.face_card_active = true)
    (hrem : g.remaining_penalties = 1)
    (hpile : g.pile ≠ []) :
    active_cards (turn g) = g.pile ++ [0] ∧
    (turn g).pile = [] ∧
    (active_cards (turn g)).length = g.pile.length + 1 ∧
    2 ≤ (active_cards (turn g)).length ∧
    active_cards (turn g) ≠ [] := by
  obtain ⟨-, -, -, h4, h5⟩ := turn_payoff g [] hhand hface hrem
  rw [List.nil_append] at h4
  have hlen : (active_cards (turn g)).length = g.pile.length + 1 := by
    rw [h4]; simp
  have hpos : 1 ≤ g.pile.length := List.length_pos.mpr hpile
  exact ⟨h4, h5, hlen, by omega, by rw [h4]; simp⟩

/-- Witness for C10: a lone plain card pays off a Jack whose pile holds
one card; the payer ends with two cards. -/
theorem last_card_payoff_not_loss_witness :
    active_cards (turn ⟨[1, 0], [0], [1], 1, true, false, 2, 0⟩) = [1] ++ [0] ∧
    (turn ⟨[1, 0], [0], [1], 1, true, false, 2, 0⟩).pile = [] ∧
    (active_cards (turn ⟨[1, 0], [0], [1], 1, true, false, 2, 0⟩)).length =
      [1].length + 1 ∧
    2 ≤ (active_cards (turn ⟨[1, 0], [0], [1], 1, true, false, 2, 0⟩)).length ∧
    active_cards (turn ⟨[1, 0], [0], [1], 1, true, false, 2, 0⟩) ≠ [] := by
  have h := last_card_payoff_not_loss ⟨[1, 0], [0], [1], 1, true, false, 2, 0⟩
    (by decide) (by decide) (by decide) (by decide)
  exact h

/-- Conservation of cards by a single turn: a popped card moves from the
active hand to the pile, and a resolved trick moves the pile back into
the active hand, so the total across both hands and the pile never
changes. -/
theorem total_cards_turn (g : Game) : total_cards (turn g) = total_cards g := by
  rcases g with ⟨p1, p2, pile, rem, face, act, m, t⟩
  cases act <;> rcases p1 with _ | ⟨c1, r1⟩ <;> rcases p2 with _ | ⟨c2, r2⟩ <;>
    dsimp only [turn, active_cards, total_cards] <;>
    split <;> (try split_ifs) <;> simp_all [total_cards] <;> omega

/-- C6: starting from a 52-card deck split 26/26, the total number of
cards across player 1's hand, player 2's hand, and the pile is 52 at the
start and after every number of turns, and each single call to `turn`
preserves this total. -/
theorem card_conservation (deck : List Int) (h52 : deck.length = 52) :
    (∀ g : Game, total_cards (turn g) = total_cards g) ∧
    ∀ n : Nat, total_cards (turn^[n] (start_game deck)) = 52 := by
  refine ⟨total_cards_turn, ?_⟩
  intro n
  induction n with
  | zero =>
    simp [start_game, total_cards, h52]
  | succ n ih =>
    rw [Function.iterate_succ_apply', total_cards_turn]
    exact ih

/-- Witness for C6: the sorted valid deck keeps 52 cards in circulation
after five turns. -/
theorem card_conservation_witness :
    total_cards (turn^[5] (start_game sorted_deck)) = 52 :=
  (card_conservation sorted_deck (by decide)).2 5

/-- Commutation of `turn` with the core-state projection: the counters
never influence the dynamics, so the core state after a turn is a
function of the core state before it. -/
theorem core_state_turn (g : Game) :
    core_state (turn g) = turn_core (core_state g) := by
  rcases g with ⟨p1, p2, pile, rem, face, act, m, t⟩
  cases act
  case false =>
    rcases p2 with _ | ⟨c2, r2⟩
    · rfl
    · simp only [turn, turn_core, core_state, active_cards]
      split_ifs <;> (try simp_all) <;> (try split_ifs) <;> rfl
  case true =>
    rcases p1 with _ | ⟨c1, r1⟩
    · rfl
    · simp only [turn, turn_core, core_state, active_cards]
      split_ifs <;> (try simp_all) <;> (try split_ifs) <;> rfl

/-- Two games with equal core states keep equal core states after any
number of turns. -/
theorem core_state_iterate_congr (n : Nat) (g g' : Game)
    (h : core_state g = core_state g') :
    core_state (turn^[n] g) = core_state (turn^[n] g') := by
  induction n with
  | zero => simpa using h
  | succ n ih =>
    rw [Function.iterate_succ_apply', Function.iterate_succ_apply',
      core_state_turn, core_state_turn, ih]

/-- Game-over only reads the hands, which the core state determines. -/
theorem is_game_over_of_core_state (g g' : Game)
    (h : core_state g = core_state g') :
    is_game_over g = is_game_over g' := by
  simp only [core_state, Prod.mk.injEq] at h
  simp [is_game_over, h.1, h.2.1]

/-- C2 (amended): recurrence of the full core state (both hands, the
pile, the penalty counter and flag, and the active player) at the start
of two turns of a live run forces the run to be periodic, so the game
can never terminate: no hand is empty at the start of any later turn
either. -/
theorem full_state_recurrence_never_terminates (g : Game) (i j : Nat)
    (hij : i < j)
    (hrec : core_state (turn^[i] g) = core_state (turn^[j] g))
    (hlive : ∀ k, k < j → is_game_over (turn^[k] g) = false) :
    ∀ m, is_game_over (turn^[m] g) = false := by
  set p := j - i with hp
  have hppos : 0 < p := by omega
  have hshift : ∀ q, core_state (turn^[i + p + q] g) =
      core_state (turn^[i + q] g) := by
    intro q
    have e1 : i + p + q = q + j := by omega
    have e2 : i + q = q + i := by omega
    rw [e1, e2, Function.iterate_add_apply, Function.iterate_add_apply]
    exact core_state_iterate_congr q _ _ hrec.symm
  have key : ∀ k, core_state (turn^[i + k] g) =
      core_state (turn^[i + k % p] g) := by
    intro k
    induction k using Nat.strong_induction_on with
    | _ k ih =>
      by_cases hk : k < p
      · rw [Nat.mod_eq_of_lt hk]
      · have e1 : i + k = i + p + (k - p) := by omega
        have hmod : (k - p) % p = k % p :=
          (Nat.mod_eq_sub_mod (by omega)).symm
        rw [e1, hshift (k - p), ih (k - p) (by omega), hmod]
  intro m
  by_cases hm : m < j
  · exact hlive m hm
  · have e1 : m = i + (m - i) := by omega
    have h2 := key (m - i)
    have h3 : i + (m - i) % p < j := by
      have := Nat.mod_lt (m - i) hppos
      omega
    rw [e1, is_game_over_of_core_state _ _ h2]
    exact hlive _ h3

/-- Witness for the amended C2: the handcrafted cycling position repeats
its core state with period 4 and is still live at turn 10. -/
theorem full_state_recurrence_never_terminates_witness :
    is_game_over (turn^[10] cycling_game) = false :=
  full_state_recurrence_never_terminates cycling_game 0 4 (by decide)
    (by decide) (by decide) 10

set_option maxRecDepth 10000 in
/-- Counterexample to C2 as stated: on `cex_deck` the bare hand pair at
the start of turn 55 recurs at the start of turn 57 of the same live run
(so `play` reports a cycle after 56 moves), yet continued play
terminates: after 58 turns player 1's hand is empty.  Hand-pair
recurrence therefore does not imply that the game can never terminate. -/
theorem hand_pair_recurrence_unsound :
    ((turn^[54] (start_game cex_deck)).p1, (turn^[54] (start_game cex_deck)).p2)
      = ((turn^[56] (start_game cex_deck)).p1,
          (turn^[56] (start_game cex_deck)).p2) ∧
    run_live_upto 57 (start_game cex_deck) = true ∧
    play 1000000 (start_game cex_deck) =
      { winner := -1, moves_played := 56, tricks_won := 5, cycled := true } ∧
    is_game_over (turn^[58] (start_game cex_deck)) = true ∧
    (turn^[58] (start_game cex_deck)).p1 = [] := by
  refine ⟨by decide, by decide, by decide, by decide, by decide⟩

/-- Counterexample to C3 as stated: in the scenario-A deck the trick that
resolves at move 2 goes to player 2, the penalty payer, not player 1.
After two turns player 1 holds only 25 cards (it lost the Jack and
gained nothing) while player 2 holds 27, its hand now ending with the
two-card pile `[1, 0]`. -/
theorem scenario_a_pile_to_payer :
    deck_a = 1 :: List.replicate 51 0 ∧
    (turn^[2] (start_game deck_a)).tricks = 1 ∧
    (turn^[2] (start_game deck_a)).pile = [] ∧
    (turn^[2] (start_game deck_a)).p1 = List.replicate 25 0 ∧
    (turn^[2] (start_game deck_a)).p2 = List.replicate 25 0 ++ [1, 0] := by
  refine ⟨by decide, by decide, by decide, by decide, by decide⟩

/-- C3 (amended): in the run on the scenario-A deck, player 1 leads with
the Jack, player 2 pays 1 penalty on turn 2, the trick resolves
immediately, and player 2 — the penalty payer — collects the pile of 2
cards; the game then terminates after 52 moves with player 1's hand
empty, so `play` reports winner 2 with 1 trick and no cycle. -/
theorem scenario_a_run :
    (start_game deck_a).active_is_p1 = true ∧
    (start_game deck_a).p1 = 1 :: List.replicate 25 0 ∧
    (turn (start_game deck_a)).pile = [1] ∧
    (turn (start_game deck_a)).face_card_active = true ∧
    (turn (start_game deck_a)).remaining_penalties = 1 ∧
    (turn (start_game deck_a)).active_is_p1 = false ∧
    (turn^[2] (start_game deck_a)).tricks = 1 ∧
    (turn^[2] (start_game deck_a)).face_card_active = false ∧
    (turn^[2] (start_game deck_a)).pile = [] ∧
    (turn^[2] (start_game deck_a)).p2 = List.replicate 25 0 ++ [1, 0] ∧
    (turn^[2] (start_game deck_a)).active_is_p1 = false ∧
    play 1000000 (start_game deck_a) =
      { winner := 2, moves_played := 52, tricks_won := 1, cycled := false } := by
  refine ⟨by decide, by decide, by decide, by decide, by decide, by decide,
    by decide, by decide, by decide, by decide, by decide, by decide⟩

/-- Counterexample to C8 as stated: a 52-entry deck value holding exactly
4 of each face rank but padded with the out-of-range value 7 satisfies
the claim's stated condition, yet `is_valid` returns false because the
code also rejects any card outside 0..4. -/
theorem is_valid_range_check :
    is_valid out_of_range_deck = false ∧
    out_of_range_deck.length = 52 ∧
    out_of_range_deck.count 1 = 4 ∧
    out_of_range_deck.count 2 = 4 ∧
    out_of_range_deck.count 3 = 4 ∧
    out_of_range_deck.count 4 = 4 := by
  refine ⟨by decide, by decide, by decide, by decide, by decide, by decide⟩

/-- C8 (amended): `is_valid` returns true iff the deck has exactly 52
cards, every card lies in range 0..4, and each face rank 1..4 occurs
exactly 4 times; consequently any deck in which some face rank does not
occur exactly 4 times (for instance 3 or 5 times after mutating a single
card) is rejected. -/
theorem is_valid_spec (cards : List Int) :
    (is_valid cards = true ↔
      cards.length = 52 ∧ (∀ c ∈ cards, 0 ≤ c ∧ c ≤ 4) ∧
      cards.count 1 = 4 ∧ cards.count 2 = 4 ∧
      cards.count 3 = 4 ∧ cards.count 4 = 4) ∧
    ∀ r : Int, (r = 1 ∨ r = 2 ∨ r = 3 ∨ r = 4) → cards.count r ≠ 4 →
      is_valid cards = false := by
  have hiff : is_valid cards = true ↔
      cards.length = 52 ∧ (∀ c ∈ cards, 0 ≤ c ∧ c ≤ 4) ∧
      cards.count 1 = 4 ∧ cards.count 2 = 4 ∧
      cards.count 3 = 4 ∧ cards.count 4 = 4 := by
    simp only [is_valid, Bool.and_eq_true, List.all_eq_true,
      decide_eq_true_eq]
    tauto
  refine ⟨hiff, ?_⟩
  intro r hr hcount
  rcases hv : is_valid cards with _ | _
  · rfl
  · have h := hiff.mp hv
    rcases hr with rfl | rfl | rfl | rfl <;> tauto

/-- Witness for C8: the sorted valid deck passes the validator and its
single-card mutation with only 3 Jacks fails it. -/
theorem is_valid_spec_witness :
    is_valid sorted_deck = true ∧ is_valid mutated_deck = false :=
  ⟨(is_valid_spec sorted_deck).1.mpr (by decide),
    (is_valid_spec mutated_deck).2 1 (Or.inl rfl) (by decide)⟩

/-- Character-level round trip: every in-range rank survives serializing
and reparsing. -/
theorem char_round_trip (c : Int) (h0 : 0 ≤ c) (h4 : c ≤ 4) :
    char_to_rank (rank_to_char c) = c := by
  interval_cases c <;> decide

/-- C9: parsing the 52-character string produced by serializing a 52-card
deck whose ranks all lie in 0..4 recovers the deck card for card. -/
theorem round_trip (d : List Int) (hlen : d.length = 52)
    (hrange : ∀ c ∈ d, 0 ≤ c ∧ c ≤ 4) :
    from_string (deck_to_string d) = d := by
  unfold from_string deck_to_string
  have hl : (d.map rank_to_char).length = 52 := by simp [hlen]
  rw [List.take_of_length_le (le_of_eq hl), hl]
  simp only [Nat.sub_self, List.replicate_zero, List.append_nil,
    List.map_map]
  have hcongr : d.map (char_to_rank ∘ rank_to_char) = d.map id :=
    List.map_congr_left fun c hc =>
      char_round_trip c (hrange c hc).1 (hrange c hc).2
  rw [hcongr, List.map_id]

/-- Witness for C9: the sorted valid deck round-trips through its string
form. -/
theorem round_trip_witness :
    from_string (deck_to_string sorted_deck) = sorted_deck :=
  round_trip sorted_deck (by decide) (by decide)

/-- Running-best characterization of the aggregation loop: starting from
any best value, folding the collection step over a result list yields
the maximum of the move counts of the winner-reporting results and the
start value. -/
theorem collect_best_eq (rs : List sim_result) :
    ∀ (b : Nat) (log : List (Nat × Nat × Int × List Int)),
      (rs.foldl collect_step (b, log)).1 =
        ((rs.filter fun r => decide (0 < r.winner)).map
          sim_result.cards_played).foldl max b := by
  induction rs with
  | nil => intro b log; rfl
  | cons r rs ih =>
    intro b log
    by_cases hw : 0 < r.winner
    · by_cases hb : b < r.cards_played
      · rw [List.foldl_cons,
          show collect_step (b, log) r =
            (r.cards_played,
              log ++ [(r.cards_played, r.tricks, r.winner, r.game_deck)]) from
            by simp only [collect_step]; rw [if_pos ⟨hw, hb⟩],
          ih, List.filter_cons_of_pos (by simpa using hw), List.map_cons,
          List.foldl_cons, Nat.max_eq_right (Nat.le_of_lt hb)]
      · rw [List.foldl_cons,
          show collect_step (b, log) r = (b, log) from
            by simp only [collect_step]; rw [if_neg fun h => hb h.2],
          ih, List.filter_cons_of_pos (by simpa using hw), List.map_cons,
          List.foldl_cons, Nat.max_eq_left (Nat.le_of_not_lt hb)]
    · rw [List.foldl_cons,
        show collect_step (b, log) r = (b, log) from
          by simp only [collect_step]; rw [if_neg fun h => hw h.1],
        ih, List.filter_cons_of_neg (by simpa using hw)]

/-- Counterexample to C5 as stated: a single completed result whose move
count 100 strictly exceeds the running best 0 triggers no update and no
record line, because it reports a cycle (winner -1) and the code also
requires `winner > 0`. -/
theorem collect_skips_cycled :
    (collect_results [⟨-1, 100, 0, []⟩]).1 = 0 ∧
    (collect_results [⟨-1, 100, 0, []⟩]).2 = [] ∧
    (0 : Nat) < 100 := by
  refine ⟨by decide, by decide, by decide⟩

/-- C5 (amended): the aggregation loop updates the running best and
appends exactly one record line precisely when a result both reports a
winner (`winner > 0`) and strictly exceeds the current best (ties do not
replace); after processing, the recorded best equals the maximum move
count over the winner-reporting results (0 when there are none),
independent of processing order. -/
theorem collect_results_spec (rs rs2 : List sim_result) (hperm : rs.Perm rs2) :
    (collect_results rs).1 =
      ((rs.filter fun r => decide (0 < r.winner)).map
        sim_result.cards_played).foldl max 0 ∧
    (collect_results rs2).1 = (collect_results rs).1 ∧
    ∀ (st : CollectState) (r : sim_result),
      (0 < r.winner ∧ st.1 < r.cards_played →
        collect_step st r =
          (r.cards_played,
            st.2 ++ [(r.cards_played, r.tricks, r.winner, r.game_deck)]) ∧
        (collect_step st r).2.length = st.2.length + 1 ∧
        (collect_step st r).1 = r.cards_played) ∧
      (¬(0 < r.winner ∧ st.1 < r.cards_played) → collect_step st r = st) := by
  refine ⟨collect_best_eq rs 0 [], ?_, ?_⟩
  · show (rs2.foldl collect_step (0, [])).1 = (rs.foldl collect_step (0, [])).1
    rw [collect_best_eq rs 0 [], collect_best_eq rs2 0 []]
    exact (((hperm.filter _).map _).foldl_eq 0).symm
  · intro st r
    constructor
    · intro h
      have hstep : collect_step st r =
          (r.cards_played,
            st.2 ++ [(r.cards_played, r.tricks, r.winner, r.game_deck)]) := by
        simp only [collect_step]; rw [if_pos h]
      refine ⟨hstep, ?_, ?_⟩ <;> (rw [hstep]; try simp)
    · intro h
      simp only [collect_step]; rw [if_neg h]

/-- Witness for C5: two winner-reporting results processed in either
order record the same best. -/
theorem collect_results_spec_witness :
    (collect_results [⟨2, 7, 1, []⟩, ⟨1, 5, 0, []⟩]).1 =
      (collect_results [⟨1, 5, 0, []⟩, ⟨2, 7, 1, []⟩]).1 :=
  (collect_results_spec [⟨1, 5, 0, []⟩, ⟨2, 7, 1, []⟩]
    [⟨2, 7, 1, []⟩, ⟨1, 5, 0, []⟩] (by decide)).2.1

/-- Counterexample to C1 as stated: in the simplest variant's
`game::turn` (the third implementation the claim cites), the payoff of
the last penalty card does NOT leave the pile with the payer.  From
`v0_payoff_state` (player 2 pays the last penalty of a Jack with a plain
card), the active player switches from player 2 to player 1, the payer
ends with an empty hand, and player 1 — the face-card side — collects
the whole pile. -/
theorem trick_resolution_v0_switches :
    active_cards_v0 v0_payoff_state = [0] ∧
    v0_payoff_state.face_card_active = true ∧
    v0_payoff_state.remaining_turns_for_trick = 1 ∧
    v0_payoff_state.active_is_p1 = false ∧
    (turn_v0 v0_payoff_state).active_is_p1 = true ∧
    (turn_v0 v0_payoff_state).p2 = [] ∧
    (turn_v0 v0_payoff_state).p1 = [0, 0, 1, 0] ∧
    (turn_v0 v0_payoff_state).cards_played = [] := by
  refine ⟨by decide, by decide, by decide, by decide, by decide, by decide,
    by decide, by decide⟩

/-- C1 (amended): when the active player plays a plain card while a
penalty is active and the remaining count reaches 0, the trick resolves
with `tricks` incremented, the penalty flag cleared, and the pile
emptied in every variant, but the collector differs: in the test-suite
and batch variants the current active player (the payer) appends the
entire pile to the back of their own hand and the active player does not
switch, while in the simplest variant `switch_player()` runs before the
pile is collected, so the active player does switch and the new active
player (the face-card side) appends the entire pile to the back of their
hand. -/
theorem trick_resolution_variants :
    (∀ (g : Game) (rest : List Int),
      active_cards g = 0 :: rest → g.face_card_active = true →
      g.remaining_penalties = 1 →
      (turn g).tricks = g.tricks + 1 ∧
      (turn g).face_card_active = false ∧
      active_cards (turn g) = rest ++ (g.pile ++ [0]) ∧
      (turn g).pile = [] ∧
      (turn g).active_is_p1 = g.active_is_p1) ∧
    ∀ (g : game_v0) (rest : List Int),
      active_cards_v0 g = 0 :: rest → g.face_card_active = true →
      g.remaining_turns_for_trick = 1 →
      (turn_v0 g).tricks = g.tricks + 1 ∧
      (turn_v0 g).face_card_active = false ∧
      (turn_v0 g).active_is_p1 = !g.active_is_p1 ∧
      active_cards_v0 (turn_v0 g) =
        opponent_cards_v0 g ++ (g.cards_played ++ [0]) ∧
      opponent_cards_v0 (turn_v0 g) = rest ∧
      (turn_v0 g).cards_played = [] := by
  constructor
  · intro g rest hhand hface hrem
    obtain ⟨h1, h2, h3, h4, h5⟩ := turn_payoff g rest hhand hface hrem
    exact ⟨h1, h2, h4, h5, h3⟩
  · intro g rest hhand hface hrem
    rcases g with ⟨p1, p2, pile, rem, face, over, act, m, t⟩
    dsimp only at hface hrem
    subst hface hrem
    cases act <;> dsimp only [active_cards_v0] at hhand <;> subst hhand <;>
      dsimp only [turn_v0, active_cards_v0, opponent_cards_v0] <;> norm_num

/-- Witness for C1: the same penalty payoff applied in the test-suite
variant (player 2 keeps the turn and the pile) and in the simplest
variant (the turn switches to player 1, who takes the pile). -/
theorem trick_resolution_variants_witness :
    ((turn ⟨[0, 0], [0], [1], 1, true, false, 2, 0⟩).tricks = 0 + 1 ∧
      (turn ⟨[0, 0], [0], [1], 1, true, false, 2, 0⟩).face_card_active = false ∧
      active_cards (turn ⟨[0, 0], [0], [1], 1, true, false, 2, 0⟩) =
        [] ++ ([1] ++ [0]) ∧
      (turn ⟨[0, 0], [0], [1], 1, true, false, 2, 0⟩).pile = [] ∧
      (turn ⟨[0, 0], [0], [1], 1, true, false, 2, 0⟩).active_is_p1 = false) ∧
    ((turn_v0 v0_payoff_state).tricks = 0 + 1 ∧
      (turn_v0 v0_payoff_state).face_card_active = false ∧
      (turn_v0 v0_payoff_state).active_is_p1 = !false ∧
      active_cards_v0 (turn_v0 v0_payoff_state) =
        opponent_cards_v0 v0_payoff_state ++ ([1] ++ [0]) ∧
      opponent_cards_v0 (turn_v0 v0_payoff_state) = [] ∧
      (turn_v0 v0_payoff_state).cards_played = []) :=
  ⟨trick_resolution_variants.1 ⟨[0, 0], [0], [1], 1, true, false, 2, 0⟩ []
      (by decide) (by decide) (by decide),
    trick_resolution_variants.2 v0_payoff_state []
      (by decide) (by decide) (by decide)⟩

end BMN
